import Mathlib

set_option maxRecDepth 100000

/-!
# Verification of the AntibioDeal dosing/dilution calculators

Shallow embedding of the two regimen solvers in this repository:

* `dilutioner.py` — "Policy A", concentration-limit driven (50 mL syringe
  pump, search over infusion counts, volumetric-pump fallback);
* `main.py` — "Policy B", fixed-ratio dilution driven (reference dose/volume
  ratio string, rounding to the nearest 10 mL, material selection).

Python floats are modelled as exact rationals (`ℚ`); Python ints as `ℕ`/`ℤ`.
A Python exception that escapes the scripts' own handlers (in particular
`ZeroDivisionError`, which neither `except (IndexError, ValueError)` nor
`except ValueError` catches) is modelled by the outcome `crash`; errors the
scripts report through `st.error`/`st.stop` are `parseError`/`invalidInput`.
The regex-based parsers are embedded as deterministic scanners over
`List Char`; for the patterns used here (`(\d+)\s*h`,
`(\d+(?:\.\d+)?)\s*mg/mL`, and the two `dans`-patterns) maximal-munch
scanning coincides with Python's backtracking search, because a digit can
never match the character class that follows a number group.
-/

/-- Python `\s` (ASCII range): the whitespace characters recognised by the
regexes and by `str.strip`. -/
def isSpaceC (c : Char) : Bool :=
  c = ' ' || c = '\t' || c = '\n' || c = '\r' || c = '\x0b' || c = '\x0c'

/-- Numeric value of a digit run, as Python's `float("…digits…")` (exact). -/
def digitsToNat (ds : List Char) : ℕ :=
  ds.foldl (fun a c => 10 * a + (c.toNat - 48)) 0

/-- Match a literal character sequence, returning the remainder. -/
def matchLit : List Char → List Char → Option (List Char)
  | [], r => some r
  | _ :: _, [] => none
  | p :: ps, c :: cs => if c = p then matchLit ps cs else none

/-- Scan a number of the form `\d+(?:\.\d+)?` (decimal dot only) at the head
of the input, returning its exact rational value and the remainder. -/
def readNumDot (l : List Char) : Option (ℚ × List Char) :=
  match l with
  | [] => none
  | c :: _ =>
    if c.isDigit then
      let ds := l.takeWhile Char.isDigit
      match l.dropWhile Char.isDigit with
      | '.' :: d :: r2 =>
        if d.isDigit then
          some ((digitsToNat ds : ℚ)
                  + (digitsToNat ((d :: r2).takeWhile Char.isDigit) : ℚ)
                    / (10 : ℚ) ^ ((d :: r2).takeWhile Char.isDigit).length,
                (d :: r2).dropWhile Char.isDigit)
        else some ((digitsToNat ds : ℚ), '.' :: d :: r2)
      | r => some ((digitsToNat ds : ℚ), r)
    else none

/-- Scan a number of the form `\d+(?:[.,]\d+)?` (decimal dot or comma, the
comma being normalised to a dot before conversion, hence the same value). -/
def readNumSep (l : List Char) : Option (ℚ × List Char) :=
  match l with
  | [] => none
  | c :: _ =>
    if c.isDigit then
      let ds := l.takeWhile Char.isDigit
      match l.dropWhile Char.isDigit with
      | s :: d :: r2 =>
        if (s = '.' || s = ',') && d.isDigit then
          some ((digitsToNat ds : ℚ)
                  + (digitsToNat ((d :: r2).takeWhile Char.isDigit) : ℚ)
                    / (10 : ℚ) ^ ((d :: r2).takeWhile Char.isDigit).length,
                (d :: r2).dropWhile Char.isDigit)
        else some ((digitsToNat ds : ℚ), s :: d :: r2)
      | r => some ((digitsToNat ds : ℚ), r)
    else none

/-- `dilutioner.py` line 84: `re.findall(r"(\d+)\s*h", …)[0]` — first digit
run that is followed by optional whitespace and an `h`. -/
def tryStabA : List Char → Option ℕ
  | [] => none
  | c :: cs =>
    if c.isDigit then
      match ((c :: cs).dropWhile Char.isDigit).dropWhile isSpaceC with
      | 'h' :: _ => some (digitsToNat ((c :: cs).takeWhile Char.isDigit))
      | _ => tryStabA cs
    else tryStabA cs

/-- One attempt of `(\d+(?:\.\d+)?)\s*mg/mL` at the head of the input. -/
def tryMg (l : List Char) : Option ℚ :=
  match readNumDot l with
  | none => none
  | some (v, r) =>
    match matchLit (['m', 'g', '/', 'm', 'L']) (r.dropWhile isSpaceC) with
    | some _ => some v
    | none => none

/-- `re.findall(r"(\d+(?:\.\d+)?)\s*mg/mL", …)[0]`: leftmost match. -/
def findMg : List Char → Option ℚ
  | [] => none
  | c :: cs =>
    match tryMg (c :: cs) with
    | some v => some v
    | none => findMg cs

/-- `dilutioner.py` lines 89–94: if the concentration string contains `-`,
the regex is applied to `split("-")[1]` (the segment between the first and
second dash), otherwise to the whole string. -/
def concSegment (s : List Char) : List Char :=
  if s.contains '-' then
    ((s.dropWhile (fun c => !(c = '-'))).tail).takeWhile (fun c => !(c = '-'))
  else s

/-- Policy A concentration parse: `max_val` in mg/mL. -/
def parseConcA (s : List Char) : Option ℚ :=
  findMg (concSegment s)

/-- `main.py` line 66: `re.findall(r"(\d+)", …)[0]` — first digit run. -/
def firstDigits : List Char → Option ℕ
  | [] => none
  | c :: cs =>
    if c.isDigit then some (digitsToNat ((c :: cs).takeWhile Char.isDigit))
    else firstDigits cs

/-- One attempt of `main.py`'s `pattern1`
`(\d+(?:[.,]\d+)?)\s*à\s*(\d+(?:[.,]\d+)?)\s*g\s*dans\s*(\d+(?:[.,]\d+)?)\s*ml`
at the head of the input. -/
def tryPat1At (l : List Char) : Option (ℚ × ℚ × ℚ) :=
  match readNumSep l with
  | none => none
  | some (a, r) =>
    match matchLit (['à']) (r.dropWhile isSpaceC) with
    | none => none
    | some r =>
      match readNumSep (r.dropWhile isSpaceC) with
      | none => none
      | some (b, r) =>
        match matchLit (['g']) (r.dropWhile isSpaceC) with
        | none => none
        | some r =>
          match matchLit (['d', 'a', 'n', 's']) (r.dropWhile isSpaceC) with
          | none => none
          | some r =>
            match readNumSep (r.dropWhile isSpaceC) with
            | none => none
            | some (c, r) =>
              match matchLit (['m', 'l']) (r.dropWhile isSpaceC) with
              | none => none
              | some _ => some (a, b, c)

/-- One attempt of `main.py`'s `pattern2`
`(\d+(?:[.,]\d+)?)\s*g\s*dans\s*(\d+(?:[.,]\d+)?)\s*ml` at the head. -/
def tryPat2At (l : List Char) : Option (ℚ × ℚ) :=
  match readNumSep l with
  | none => none
  | some (a, r) =>
    match matchLit (['g']) (r.dropWhile isSpaceC) with
    | none => none
    | some r =>
      match matchLit (['d', 'a', 'n', 's']) (r.dropWhile isSpaceC) with
      | none => none
      | some r =>
        match readNumSep (r.dropWhile isSpaceC) with
        | none => none
        | some (c, r) =>
          match matchLit (['m', 'l']) (r.dropWhile isSpaceC) with
          | none => none
          | some _ => some (a, c)

/-- `re.search(pattern1, …)`: leftmost match of pattern 1. -/
def searchP1 : List Char → Option (ℚ × ℚ × ℚ)
  | [] => none
  | c :: cs =>
    match tryPat1At (c :: cs) with
    | some x => some x
    | none => searchP1 cs

/-- `re.search(pattern2, …)`: leftmost match of pattern 2. -/
def searchP2 : List Char → Option (ℚ × ℚ)
  | [] => none
  | c :: cs =>
    match tryPat2At (c :: cs) with
    | some x => some x
    | none => searchP2 cs

/-- `main.py` lines 92–98: `if match1: … elif match2: … else: error`.
Pattern 1 contributes groups 2 and 3 (`max_val`, `vol_ref`); pattern 2
contributes groups 1 and 2. -/
def parseDilution (dil : List Char) : Option (ℚ × ℚ) :=
  match searchP1 dil with
  | some (_, b, c) => some (b, c)
  | none =>
    match searchP2 dil with
    | some (a, c) => some (a, c)
    | none => none

/-- Infusion hardware: syringe pump (`PSE`), volumetric pump (`pompe`),
gravity line (`IVL`). -/
inductive Material where
  | PSE
  | pompe
  | IVL
deriving DecidableEq, Repr

/-- The regimen plan a solver prints on success. -/
structure Plan where
  nb_infusion : ℕ
  dosage_infusion : ℚ
  volume_dilution : ℚ
  material : Material
deriving DecidableEq, Repr

/-- Observable outcome of one request: a plan, one of the structured errors
the scripts report themselves, or a Python exception escaping their
handlers. -/
inductive Outcome where
  | plan (p : Plan)
  | invalidInput
  | parseError
  | crash
deriving DecidableEq, Repr

/-- The search constraint of `dilutioner.py` lines 113–119: `n` must divide
the day evenly, respect stability, and fit the 50 mL concentration cap. -/
def feasb (sh : ℕ) (maxVal dose : ℚ) (n : ℕ) : Bool :=
  decide (24 % n = 0) && decide ((24 : ℚ) / (n : ℚ) ≤ (sh : ℚ))
    && decide (dose / (n : ℚ) * 1000 / 50 ≤ maxVal)

/-- Python's `min(…)` over a possibly-empty list of candidates, exactly as
`dilutioner.py` line 122–124 uses it: `None` on the empty list. -/
def codeMin : List ℕ → Option ℕ
  | [] => none
  | h :: t => some (t.foldl Nat.min h)

/-- The candidate range of `dilutioner.py` line 112:
`range(min_infusions + 1, min_infusions * 2 + 1)`. -/
def searchRange (minInf : ℕ) : List ℕ :=
  List.range' (minInf + 1) minInf

/-- `dilutioner.py` lines 133–136: `volume_dilution = math.ceil(
(dose_per_infusion * 1000) / max_val)` followed by
`volume_dilution = math.ceil(volume_dilution / 10) * 10`. -/
def fallbackVol (dpi maxVal : ℚ) : ℤ :=
  ⌈((⌈dpi * 1000 / maxVal⌉ : ℤ) : ℚ) / 10⌉ * 10

/-- Policy A core (`dilutioner.py` lines 96–137), after the stability and
concentration strings have parsed to `sh` hours and `maxVal` mg/mL.
`crash` marks the uncaught `ZeroDivisionError`s: `int(24 / 0.0)`,
`dose_24h / 0`, and `… / 0.0` in the fallback volume. -/
def solveA (sh : ℕ) (maxVal dose : ℚ) : Outcome :=
  if sh = 0 then .crash
  else if 24 / sh = 0 then .crash
  else if dose / ((24 / sh : ℕ) : ℚ) * 1000 / 50 ≤ maxVal then
    .plan ⟨24 / sh, dose / ((24 / sh : ℕ) : ℚ), 50, .PSE⟩
  else
    match codeMin ((searchRange (24 / sh)).filter (feasb sh maxVal dose)) with
    | some n => .plan ⟨n, dose / (n : ℚ), 50, .PSE⟩
    | none =>
      if maxVal = 0 then .crash
      else
        .plan ⟨24 / sh, dose / ((24 / sh : ℕ) : ℚ),
          ((fallbackVol (dose / ((24 / sh : ℕ) : ℚ)) maxVal : ℤ) : ℚ), .pompe⟩

/-- The whole Policy A request path (`dilutioner.py` lines 79–168): the
dose guard, the two parses inside `try`, and the solver.  `IndexError` and
`ValueError` are caught by line 166 and reported (`parseError`). -/
def policyA (stab conc : List Char) (dose : ℚ) : Outcome :=
  if dose ≤ 0 then .invalidInput
  else
    match tryStabA stab with
    | none => .parseError
    | some sh =>
      match parseConcA conc with
      | none => .parseError
      | some maxVal => solveA sh maxVal dose

/-- Python 3's `round` to an integer: round half to even. -/
def pyRound (q : ℚ) : ℤ :=
  if q - ⌊q⌋ < 1 / 2 then ⌊q⌋
  else if (1 : ℚ) / 2 < q - ⌊q⌋ then ⌊q⌋ + 1
  else if ⌊q⌋ % 2 = 0 then ⌊q⌋ else ⌊q⌋ + 1

/-- `"NA"` as a character list. -/
def naChars : List Char := ['N', 'A']

/-- Python `s.strip().upper()` (ASCII). -/
def upperStrip (s : List Char) : List Char :=
  (((s.dropWhile isSpaceC).reverse.dropWhile isSpaceC).reverse).map Char.toUpper

/-- `main.py` lines 103–118 once `nb`, the per-infusion dose, and the
dilution reference `(maxVal, volRef)` are known: volume by ratio, rounding
to the nearest 10 mL, and material selection. -/
def mkB (nb : ℕ) (dosage volRef maxVal : ℚ) (dur : List Char) : Outcome :=
  let arr : ℤ := pyRound (dosage * volRef / maxVal / 10) * 10
  .plan ⟨nb, dosage, (arr : ℚ),
    if upperStrip dur = naChars then .IVL
    else if arr ≤ 50 then .PSE
    else .pompe⟩

/-- The whole Policy B request path (`main.py` lines 56–128): dose guard,
stability parse (`IndexError` caught, `st.stop`), `nb_infusion` and the
per-infusion dose (uncaught `ZeroDivisionError` when the parsed stability
is `0` or exceeds `24`), dilution parse (unrecognised format reported),
and the volume/material computation (uncaught `ZeroDivisionError` when
`max_val` is `0`). -/
def policyB (stab dil dur : List Char) (dose : ℚ) : Outcome :=
  if dose ≤ 0 then .invalidInput
  else
    match firstDigits stab with
    | none => .parseError
    | some sh =>
      if sh = 0 then .crash
      else if 24 / sh = 0 then .crash
      else
        match parseDilution dil with
        | none => .parseError
        | some (maxVal, volRef) =>
          if maxVal = 0 then .crash
          else mkB (24 / sh) (dose / ((24 / sh : ℕ) : ℚ)) volRef maxVal dur

/-- A spreadsheet cell as the loaders see it: either a missing value
(`NaN`) or a string. -/
inductive Cell where
  | nan
  | str (s : List Char)
deriving DecidableEq

/-- Python `str(cell)`: `NaN` stringifies to `"nan"`. -/
def pyStr : Cell → List Char
  | .nan => ['n', 'a', 'n']
  | .str s => s

/-- `pd.isna` on a cell value: `True` only for the missing value; a Python
string — including the string `"nan"` — is never `isna`. -/
def pdIsna : Cell → Bool
  | .nan => true
  | .str _ => false

/-- Python `strip` (both ends). -/
def stripChars (s : List Char) : List Char :=
  ((s.dropWhile isSpaceC).reverse.dropWhile isSpaceC).reverse

/-- `dilutioner.py` line 40, the Policy A loader's retention test:
`not pd.isna(row['Concentration']) and str(row['Concentration']).strip() != ''`. -/
def keepRowA (c : Cell) : Bool :=
  !pdIsna c && !(stripChars (pyStr c)).isEmpty

/-- `main.py` lines 21–23, the Policy B loader's skip test:
`dilution_str = str(row['Dilution pratique'])`, then
`pd.isna(dilution_str) or dilution_str.strip() == ''` — note `pd.isna` is
applied to the *stringified* value. -/
def skipRowB (c : Cell) : Bool :=
  pdIsna (.str (pyStr c)) || (stripChars (pyStr c)).isEmpty

/-! ## Supporting lemmas -/

theorem feasb_iff (sh : ℕ) (maxVal dose : ℚ) (n : ℕ) :
    feasb sh maxVal dose n = true ↔
      24 % n = 0 ∧ (24 : ℚ) / (n : ℚ) ≤ (sh : ℚ) ∧ dose / (n : ℚ) * 1000 / 50 ≤ maxVal := by
  simp [feasb, and_assoc]

theorem mem_searchRange {m n : ℕ} : n ∈ searchRange m ↔ m + 1 ≤ n ∧ n ≤ 2 * m := by
  simp only [searchRange, List.mem_range']
  constructor
  · rintro ⟨i, hi, rfl⟩; omega
  · intro h; exact ⟨n - (m + 1), by omega, by omega⟩

theorem mem_fullRange {m n : ℕ} : n ∈ List.range' m (m + 1) ↔ m ≤ n ∧ n ≤ 2 * m := by
  rw [List.mem_range']
  constructor
  · rintro ⟨i, hi, rfl⟩; omega
  · intro h; exact ⟨n - m, by omega, by omega⟩

theorem foldl_min_eq (t : List ℕ) (h : ℕ) (hle : ∀ x ∈ t, h ≤ x) :
    t.foldl Nat.min h = h := by
  induction t generalizing h with
  | nil => rfl
  | cons a t ih =>
    have ha : Nat.min h a = h := Nat.min_eq_left (hle a (List.mem_cons_self a t))
    simp only [List.foldl_cons, ha]
    exact ih h fun x hx => hle x (List.mem_cons_of_mem _ hx)

theorem filter_head?_eq_find? (p : ℕ → Bool) (l : List ℕ) :
    (l.filter p).head? = l.find? p := by
  induction l with
  | nil => rfl
  | cons a l ih =>
    by_cases h : p a
    · simp [List.filter_cons, List.find?_cons, h]
    · simp [List.filter_cons, List.find?_cons, h, ih]

theorem pairwise_le_range' (s n : ℕ) : (List.range' s n).Pairwise (· ≤ ·) := by
  induction n generalizing s with
  | zero => simp
  | succ n ih =>
    rw [List.range'_succ]
    refine List.Pairwise.cons ?_ (ih (s + 1))
    intro x hx
    rcases List.mem_range'.mp hx with ⟨i, _, rfl⟩
    omega

theorem codeMin_filter_eq_find? (p : ℕ → Bool) (s n : ℕ) :
    codeMin ((List.range' s n).filter p) = (List.range' s n).find? p := by
  rcases hf : (List.range' s n).filter p with _ | ⟨h, t⟩
  · rw [← filter_head?_eq_find?, hf]; rfl
  · have hp : (h :: t).Pairwise (· ≤ ·) := hf ▸ (pairwise_le_range' s n).filter p
    have hmin : t.foldl Nat.min h = h :=
      foldl_min_eq t h fun x hx => List.rel_of_pairwise_cons hp hx
    rw [← filter_head?_eq_find?, hf]
    simp [codeMin, hmin]

theorem find?_is_least (p : ℕ → Bool) (s n m : ℕ)
    (h : (List.range' s n).find? p = some m) :
    m ∈ List.range' s n ∧ p m = true ∧ ∀ x ∈ List.range' s n, p x = true → m ≤ x := by
  refine ⟨List.mem_of_find?_eq_some h, List.find?_some h, ?_⟩
  intro x hx hpx
  rw [← filter_head?_eq_find?] at h
  rcases hf : (List.range' s n).filter p with _ | ⟨a, t⟩
  · rw [hf] at h; cases h
  · rw [hf] at h
    injection h with h'
    subst h'
    have hxf : x ∈ (List.range' s n).filter p := List.mem_filter.mpr ⟨hx, hpx⟩
    rw [hf] at hxf
    rcases List.mem_cons.mp hxf with rfl | hxt
    · exact le_refl _
    · exact List.rel_of_pairwise_cons (hf ▸ (pairwise_le_range' s n).filter p) hxt

theorem readNumDot_nonneg {l : List Char} {v : ℚ} {r : List Char}
    (h : readNumDot l = some (v, r)) : 0 ≤ v := by
  unfold readNumDot at h
  rcases l with _ | ⟨c, cs⟩
  · cases h
  · by_cases hc : c.isDigit
    · simp only [hc, if_true] at h
      split at h
      · split at h
        · injection h with h'
          injection h' with h1 h2
          subst h1
          positivity
        · injection h with h'
          injection h' with h1 h2
          subst h1
          positivity
      · injection h with h'
        injection h' with h1 h2
        subst h1
        positivity
    · simp only [hc, if_false] at h
      cases h

theorem tryMg_nonneg {l : List Char} {v : ℚ} (h : tryMg l = some v) : 0 ≤ v := by
  rcases hE : readNumDot l with _ | ⟨w, r⟩ <;> simp only [tryMg, hE] at h
  · cases h
  · rcases hM : matchLit (['m', 'g', '/', 'm', 'L']) (r.dropWhile isSpaceC) with _ | r2 <;>
      rw [hM] at h
    · cases h
    · injection h with h'
      subst h'
      exact readNumDot_nonneg hE

theorem findMg_nonneg {l : List Char} {v : ℚ} (h : findMg l = some v) : 0 ≤ v := by
  induction l with
  | nil => cases h
  | cons c cs ih =>
    rcases hT : tryMg (c :: cs) with _ | w <;> simp only [findMg, hT] at h
    · exact ih h
    · injection h with h'
      subst h'
      exact tryMg_nonneg hT

theorem parseConcA_nonneg {s : List Char} {v : ℚ} (h : parseConcA s = some v) : 0 ≤ v :=
  findMg_nonneg h

theorem conc_anti {dose : ℚ} (hd : 0 ≤ dose) {m n : ℕ} (hm : 0 < m) (hmn : m ≤ n) :
    dose / (n : ℚ) * 1000 / 50 ≤ dose / (m : ℚ) * 1000 / 50 := by
  have h1 : dose / (n : ℚ) ≤ dose / (m : ℚ) := by
    apply div_le_div_of_nonneg_left hd
    · exact_mod_cast hm
    · exact_mod_cast hmn
  have h2 : dose / (n : ℚ) * 1000 ≤ dose / (m : ℚ) * 1000 := by linarith
  linarith

/-- For every stability between 1 and 24 hours there is an infusion count
in `[minInfusions, 2*minInfusions]` that divides 24 and respects the
stability window (the divisors of 24 are at most a factor 2 apart). -/
theorem exists_nstar (sh : ℕ) (h1 : 1 ≤ sh) (h2 : sh ≤ 24) :
    ∃ n ∈ List.range' (24 / sh) (24 / sh + 1),
      24 % n = 0 ∧ (24 : ℚ) / (n : ℚ) ≤ (sh : ℚ) := by
  interval_cases sh <;> with_unfolding_all decide

theorem le_fallbackVol (dpi maxVal : ℚ) :
    dpi * 1000 / maxVal ≤ ((fallbackVol dpi maxVal : ℤ) : ℚ) := by
  unfold fallbackVol
  have h1 : dpi * 1000 / maxVal ≤ ((⌈dpi * 1000 / maxVal⌉ : ℤ) : ℚ) := Int.le_ceil _
  have h2 : ((⌈dpi * 1000 / maxVal⌉ : ℤ) : ℚ) / 10
      ≤ ((⌈((⌈dpi * 1000 / maxVal⌉ : ℤ) : ℚ) / 10⌉ : ℤ) : ℚ) := Int.le_ceil _
  push_cast
  push_cast at h2
  linarith

theorem fallbackVol_pos {dpi maxVal : ℚ} (hx : 0 < dpi * 1000 / maxVal) :
    0 < fallbackVol dpi maxVal := by
  unfold fallbackVol
  have h1 : 0 < ⌈dpi * 1000 / maxVal⌉ := Int.ceil_pos.mpr hx
  have h2 : 0 < ⌈((⌈dpi * 1000 / maxVal⌉ : ℤ) : ℚ) / 10⌉ := by
    apply Int.ceil_pos.mpr
    apply div_pos _ (by norm_num)
    exact_mod_cast h1
  omega

theorem fallbackVol_min {dpi maxVal : ℚ} {k : ℤ}
    (hk : dpi * 1000 / maxVal ≤ ((10 * k : ℤ) : ℚ)) :
    fallbackVol dpi maxVal ≤ 10 * k := by
  unfold fallbackVol
  have h1 : ⌈dpi * 1000 / maxVal⌉ ≤ 10 * k := Int.ceil_le.mpr hk
  have h2 : ⌈((⌈dpi * 1000 / maxVal⌉ : ℤ) : ℚ) / 10⌉ ≤ k := by
    apply Int.ceil_le.mpr
    rw [div_le_iff₀ (by norm_num : (0 : ℚ) < 10)]
    have : ((⌈dpi * 1000 / maxVal⌉ : ℤ) : ℚ) ≤ ((10 * k : ℤ) : ℚ) := by exact_mod_cast h1
    push_cast at this ⊢
    linarith
  omega

theorem fallbackVol_conc_le {dpi maxVal : ℚ} (hd : 0 < dpi) (hm : 0 < maxVal) :
    dpi * 1000 / ((fallbackVol dpi maxVal : ℤ) : ℚ) ≤ maxVal := by
  have hx : 0 < dpi * 1000 / maxVal := by positivity
  have hv : (0 : ℚ) < ((fallbackVol dpi maxVal : ℤ) : ℚ) := by
    exact_mod_cast fallbackVol_pos hx
  rw [div_le_iff₀ hv]
  have h1 : dpi * 1000 / maxVal ≤ ((fallbackVol dpi maxVal : ℤ) : ℚ) := le_fallbackVol ..
  rw [div_le_iff₀ hm] at h1
  linarith [mul_comm maxVal ((fallbackVol dpi maxVal : ℤ) : ℚ)]

theorem codeMin_searchRange (p : ℕ → Bool) (m : ℕ) :
    codeMin ((searchRange m).filter p) = (searchRange m).find? p :=
  codeMin_filter_eq_find? p (m + 1) m

theorem find?_searchRange_least (p : ℕ → Bool) (m n : ℕ)
    (h : (searchRange m).find? p = some n) :
    n ∈ searchRange m ∧ p n = true ∧ ∀ x ∈ searchRange m, p x = true → n ≤ x :=
  find?_is_least p (m + 1) m n h

/-! ## The claims -/

/-- C3: under Policy A, when the minimum-infusion 50 mL concentration check
fails, collecting every candidate of `range(min_infusions + 1,
min_infusions * 2 + 1)` that satisfies the three search constraints and
taking `min` of the collection returns the same `n` as an ascending
first-match search, and the solver returns exactly that `n` (the smallest
feasible one) with a 50 mL syringe-pump plan. -/
theorem policyA_search_first_match (sh : ℕ) (maxVal dose : ℚ) :
    codeMin ((searchRange (24 / sh)).filter (feasb sh maxVal dose))
        = (searchRange (24 / sh)).find? (feasb sh maxVal dose)
      ∧ ∀ n : ℕ, 24 / sh ≠ 0 →
          ¬ dose / ((24 / sh : ℕ) : ℚ) * 1000 / 50 ≤ maxVal →
          (searchRange (24 / sh)).find? (feasb sh maxVal dose) = some n →
          solveA sh maxVal dose = .plan ⟨n, dose / (n : ℚ), 50, .PSE⟩
            ∧ feasb sh maxVal dose n = true
            ∧ ∀ m ∈ searchRange (24 / sh), feasb sh maxVal dose m = true → n ≤ m := by
  constructor
  · exact codeMin_searchRange (feasb sh maxVal dose) (24 / sh)
  · intro n h0 hconc hfind
    have hsh : sh ≠ 0 := fun h => h0 (by rw [h])
    obtain ⟨hmem, hfeas, hmin⟩ := find?_searchRange_least (feasb sh maxVal dose) (24 / sh) n hfind
    refine ⟨?_, hfeas, hmin⟩
    unfold solveA
    rw [if_neg hsh, if_neg h0, if_neg hconc, codeMin_searchRange, hfind]

/-- Witness for C3 at `sh = 24`, `maxVal = 4`, `dose = 3/10`: the check at
one infusion fails (6 mg/mL > 4) and the ascending search selects `n = 2`. -/
theorem policyA_search_first_match_witness :
    solveA 24 4 (3 / 10) = .plan ⟨2, 3 / 10 / ((2 : ℕ) : ℚ), 50, .PSE⟩ :=
  ((policyA_search_first_match 24 4 (3 / 10)).2 2 (by decide)
    (by with_unfolding_all decide) (by with_unfolding_all decide)).1

/-- C10: every plan Policy A returns — in all three branches — satisfies
`dosePerInfusion * 1000 / dilutionVolume ≤ maxConcentration`. -/
theorem policyA_concentration_cap (stab conc : List Char) (sh : ℕ) (maxVal dose : ℚ)
    (p : Plan) (hs : tryStabA stab = some sh) (hc : parseConcA conc = some maxVal)
    (hp : policyA stab conc dose = .plan p) :
    p.dosage_infusion * 1000 / p.volume_dilution ≤ maxVal := by
  unfold policyA at hp
  by_cases hd : dose ≤ 0
  · rw [if_pos hd] at hp; cases hp
  rw [if_neg hd] at hp
  simp only [hs, hc] at hp
  unfold solveA at hp
  by_cases h1 : sh = 0
  · rw [if_pos h1] at hp; cases hp
  rw [if_neg h1] at hp
  by_cases h2 : 24 / sh = 0
  · rw [if_pos h2] at hp; cases hp
  rw [if_neg h2] at hp
  by_cases h3 : dose / ((24 / sh : ℕ) : ℚ) * 1000 / 50 ≤ maxVal
  · rw [if_pos h3] at hp
    rw [Outcome.plan.injEq] at hp
    subst hp
    exact h3
  · rw [if_neg h3] at hp
    rcases hm : codeMin ((searchRange (24 / sh)).filter (feasb sh maxVal dose)) with _ | n <;>
      rw [hm] at hp
    · by_cases h4 : maxVal = 0
      · rw [if_pos h4] at hp; cases hp
      rw [if_neg h4] at hp
      rw [Outcome.plan.injEq] at hp
      subst hp
      have hdose : 0 < dose := not_le.mp hd
      have hmax : 0 < maxVal := lt_of_le_of_ne (parseConcA_nonneg hc) (Ne.symm h4)
      have hdpi : 0 < dose / ((24 / sh : ℕ) : ℚ) := by
        apply div_pos hdose
        exact_mod_cast Nat.pos_of_ne_zero h2
      exact fallbackVol_conc_le hdpi hmax
    · rw [Outcome.plan.injEq] at hp
      subst hp
      rw [codeMin_searchRange] at hm
      obtain ⟨-, hfeas, -⟩ := find?_searchRange_least _ _ _ hm
      exact ((feasb_iff sh maxVal dose n).mp hfeas).2.2

/-- Witness for C10 in the fallback branch: stability 24 h, limit 4 mg/mL,
dose 2 g gives the plan `(1 infusion, 500 mL, pompe)`, and its
concentration `2 * 1000 / 500 = 4` is within the limit. -/
theorem policyA_concentration_cap_witness :
    (Plan.mk 1 2 500 .pompe).dosage_infusion * 1000
      / (Plan.mk 1 2 500 .pompe).volume_dilution ≤ 4 :=
  policyA_concentration_cap (("24h").toList) (("4 mg/mL").toList) 24 4 2 _
    (by decide) (by decide) (by with_unfolding_all decide)

/-- C1 (amended): under Policy A, with parsed stability `sh` and parsed
concentration limit `maxVal` and a positive dose: (1) whenever some `n` in
`[minInfusions, 2*minInfusions]` satisfies the search constraints, the
returned plan has concentration ≤ `maxVal`, a 50 mL volume and the syringe
pump; (2) when no such `n` exists — and additionally `1 ≤ sh ≤ 24` and
`maxVal > 0`, without which the source raises an uncaught
`ZeroDivisionError` instead of returning a plan — the material is the
volumetric pump and the volume is the smallest positive multiple of 10 mL
honouring the concentration cap. -/
theorem policyA_plan_selection (stab conc : List Char) (sh : ℕ) (maxVal dose : ℚ)
    (hs : tryStabA stab = some sh) (hc : parseConcA conc = some maxVal) (hd : 0 < dose) :
    ((∃ n ∈ List.range' (24 / sh) (24 / sh + 1), feasb sh maxVal dose n = true) →
        ∃ p, policyA stab conc dose = .plan p ∧ p.volume_dilution = 50 ∧
          p.material = .PSE ∧ p.dosage_infusion * 1000 / p.volume_dilution ≤ maxVal)
    ∧ ((∀ n ∈ List.range' (24 / sh) (24 / sh + 1), feasb sh maxVal dose n = false) →
        1 ≤ sh → sh ≤ 24 → 0 < maxVal →
        ∃ p, policyA stab conc dose = .plan p ∧ p.material = .pompe ∧
          (∃ k : ℕ, p.volume_dilution = 10 * (k : ℚ)) ∧
          p.dosage_infusion * 1000 / p.volume_dilution ≤ maxVal ∧
          ∀ v : ℚ, 0 < v → (∃ k : ℕ, v = 10 * (k : ℚ)) →
            p.dosage_infusion * 1000 / v ≤ maxVal → p.volume_dilution ≤ v) := by
  have hpol : policyA stab conc dose = solveA sh maxVal dose := by
    unfold policyA
    rw [if_neg (not_le.mpr hd)]
    simp only [hs, hc]
  constructor
  · rintro ⟨n, hn, hfn⟩
    obtain ⟨hdiv, hhrs, hcn⟩ := (feasb_iff sh maxVal dose n).mp hfn
    have hn0 : n ≠ 0 := by
      intro h
      rw [h] at hdiv
      simp at hdiv
    obtain ⟨hlo, hhi⟩ := mem_fullRange.mp hn
    have hmin0 : 24 / sh ≠ 0 := by
      intro h
      rw [h] at hhi
      omega
    have hsh0 : sh ≠ 0 := by
      intro h
      rw [h] at hmin0
      exact hmin0 rfl
    rw [hpol]
    unfold solveA
    rw [if_neg hsh0, if_neg hmin0]
    by_cases h3 : dose / ((24 / sh : ℕ) : ℚ) * 1000 / 50 ≤ maxVal
    · rw [if_pos h3]
      exact ⟨_, rfl, rfl, rfl, h3⟩
    · rw [if_neg h3]
      have hne' : n ≠ 24 / sh := by
        intro h
        exact h3 (by rw [← h]; exact hcn)
      have hmemS : n ∈ searchRange (24 / sh) :=
        mem_searchRange.mpr ⟨by omega, hhi⟩
      rcases hfind : (searchRange (24 / sh)).find? (feasb sh maxVal dose) with _ | m
      · exfalso
        rw [List.find?_eq_none] at hfind
        exact hfind n hmemS hfn
      · rw [codeMin_searchRange, hfind]
        obtain ⟨-, hfm, -⟩ := find?_searchRange_least _ _ _ hfind
        exact ⟨_, rfl, rfl, rfl, ((feasb_iff sh maxVal dose m).mp hfm).2.2⟩
  · intro hall h1 h2 hmax
    have hsh0 : sh ≠ 0 := by omega
    have hmin1 : 1 ≤ 24 / sh :=
      (Nat.le_div_iff_mul_le (show 0 < sh by omega)).mpr (by omega)
    have hmin0 : 24 / sh ≠ 0 := Nat.one_le_iff_ne_zero.mp hmin1
    obtain ⟨ns, hnsmem, hnsdiv, hnshrs⟩ := exists_nstar sh h1 h2
    have hnsfeas := hall ns hnsmem
    have hnsconc : ¬ dose / (ns : ℚ) * 1000 / 50 ≤ maxVal := by
      intro hcc
      rw [(feasb_iff sh maxVal dose ns).mpr ⟨hnsdiv, hnshrs, hcc⟩] at hnsfeas
      cases hnsfeas
    obtain ⟨hnslo, hnshi⟩ := mem_fullRange.mp hnsmem
    have h3 : ¬ dose / ((24 / sh : ℕ) : ℚ) * 1000 / 50 ≤ maxVal := by
      intro hcc
      apply hnsconc
      calc dose / (ns : ℚ) * 1000 / 50
          ≤ dose / ((24 / sh : ℕ) : ℚ) * 1000 / 50 :=
            conc_anti hd.le (Nat.pos_of_ne_zero hmin0) hnslo
        _ ≤ maxVal := hcc
    have hnone : (searchRange (24 / sh)).find? (feasb sh maxVal dose) = none := by
      rw [List.find?_eq_none]
      intro x hx
      obtain ⟨ha, hb⟩ := mem_searchRange.mp hx
      have := hall x (mem_fullRange.mpr ⟨by omega, hb⟩)
      simp [this]
    rw [hpol]
    unfold solveA
    rw [if_neg hsh0, if_neg hmin0, if_neg h3, codeMin_searchRange, hnone,
      if_neg (ne_of_gt hmax)]
    have hdpi : 0 < dose / ((24 / sh : ℕ) : ℚ) :=
      div_pos hd (by exact_mod_cast Nat.pos_of_ne_zero hmin0)
    have hx : 0 < dose / ((24 / sh : ℕ) : ℚ) * 1000 / maxVal := by positivity
    have hfv : 0 < fallbackVol (dose / ((24 / sh : ℕ) : ℚ)) maxVal := fallbackVol_pos hx
    refine ⟨_, rfl, rfl, ?_, ?_, ?_⟩
    · have hcpos : 0 < ⌈((⌈dose / ((24 / sh : ℕ) : ℚ) * 1000 / maxVal⌉ : ℤ) : ℚ) / 10⌉ := by
        have h := hfv
        unfold fallbackVol at h
        omega
      refine ⟨(⌈((⌈dose / ((24 / sh : ℕ) : ℚ) * 1000 / maxVal⌉ : ℤ) : ℚ) / 10⌉).toNat, ?_⟩
      show ((fallbackVol (dose / ((24 / sh : ℕ) : ℚ)) maxVal : ℤ) : ℚ) = _
      have htn : (((⌈((⌈dose / ((24 / sh : ℕ) : ℚ) * 1000 / maxVal⌉ : ℤ) : ℚ) / 10⌉).toNat : ℕ) : ℚ)
          = ((⌈((⌈dose / ((24 / sh : ℕ) : ℚ) * 1000 / maxVal⌉ : ℤ) : ℚ) / 10⌉ : ℤ) : ℚ) := by
        exact_mod_cast congrArg (Int.cast : ℤ → ℚ) (Int.toNat_of_nonneg hcpos.le)
      rw [htn]
      unfold fallbackVol
      push_cast
      ring
    · exact fallbackVol_conc_le hdpi hmax
    · rintro v hv ⟨k, rfl⟩ hcv
      have hcv' : dose / ((24 / sh : ℕ) : ℚ) * 1000 ≤ maxVal * (10 * (k : ℚ)) := by
        rw [div_le_iff₀ hv] at hcv
        exact hcv
      have hk : dose / ((24 / sh : ℕ) : ℚ) * 1000 / maxVal ≤ ((10 * (k : ℤ) : ℤ) : ℚ) := by
        rw [div_le_iff₀ hmax]
        push_cast
        linarith
      have hle := fallbackVol_min hk
      show ((fallbackVol (dose / ((24 / sh : ℕ) : ℚ)) maxVal : ℤ) : ℚ) ≤ _
      have hq : ((fallbackVol (dose / ((24 / sh : ℕ) : ℚ)) maxVal : ℤ) : ℚ)
          ≤ ((10 * (k : ℤ) : ℤ) : ℚ) := by exact_mod_cast hle
      push_cast at hq
      linarith

/-- Counterexample to C1 as stated: with stability `"24h"` and
concentration `"0 mg/mL"` (both of which parse) and dose 1 g, no `n` in
`[minInfusions, 2*minInfusions] = [1, 2]` satisfies the constraints, yet
the solver does not return a volumetric-pump plan — it crashes with an
uncaught `ZeroDivisionError` dividing by `max_val = 0`. -/
theorem policyA_plan_selection_cex :
    tryStabA (("24h").toList) = some 24
      ∧ parseConcA (("0 mg/mL").toList) = some 0
      ∧ List.range' (24 / 24) (24 / 24 + 1) = [1, 2]
      ∧ feasb 24 0 1 1 = false
      ∧ feasb 24 0 1 2 = false
      ∧ policyA (("24h").toList) (("0 mg/mL").toList) 1 = .crash := by
  with_unfolding_all decide

/-- Witness for C1 at stability `"24h"`, concentration `"4 mg/mL"`,
dose 1/10 g: `n = 1` is feasible, and the solver indeed returns a 50 mL
syringe-pump plan within the concentration cap. -/
theorem policyA_plan_selection_witness :
    ∃ p, policyA (("24h").toList) (("4 mg/mL").toList) (1 / 10) = .plan p ∧
      p.volume_dilution = 50 ∧ p.material = .PSE ∧
      p.dosage_infusion * 1000 / p.volume_dilution ≤ 4 :=
  (policyA_plan_selection (("24h").toList) (("4 mg/mL").toList) 24 4 (1 / 10)
      (by decide) (by decide) (by norm_num)).1
    ⟨1, by decide, by with_unfolding_all decide⟩

/-- C2 (code bug): the invariant `24 / infusionCount ≤ stabilityHours` is
violated by the minimum-infusion branch.  Stability `"5h"` parses to 5,
`min_infusions = int(24/5) = 4`, and with limit 100 mg/mL and dose 1 g the
solver accepts 4 infusions — but `24 / 4 = 6 > 5` hours between
infusions exceeds the stability window.  (The divides-24 half does hold:
the returned count is 4.) -/
theorem policyA_stability_violated :
    tryStabA (("5h").toList) = some 5
      ∧ parseConcA (("100 mg/mL").toList) = some 100
      ∧ policyA (("5h").toList) (("100 mg/mL").toList) 1
          = .plan ⟨4, 1 / ((4 : ℕ) : ℚ), 50, .PSE⟩
      ∧ 24 % 4 = 0
      ∧ ¬ ((24 : ℚ) / ((4 : ℕ) : ℚ) ≤ ((5 : ℕ) : ℚ)) := by
  with_unfolding_all decide

/-- C4 (code bug): strings accepted by the parsers can still crash the
solvers.  A parsed stability of `0` hours makes both policies raise an
uncaught `ZeroDivisionError` (`int(24 / 0.0)` resp. `24 / 0.0`), and a
parsed stability above 24 hours makes `min_infusions`/`nb_infusion` zero
so the per-infusion dose division crashes; neither exception is
caught by `except (IndexError, ValueError)` / `except ValueError`. -/
theorem solver_crash_on_degenerate_stability :
    policyA (("0h").toList) (("4 mg/mL").toList) 1 = .crash
      ∧ policyB (("0h").toList) (("1 g dans 100 ml").toList) naChars 1 = .crash
      ∧ policyA (("48h").toList) (("4 mg/mL").toList) 1 = .crash
      ∧ policyB (("48h").toList) (("1 g dans 100 ml").toList) naChars 1 = .crash := by
  with_unfolding_all decide

/-- C5 (code bug): the Policy A loader keeps exactly the rows with a
non-empty, non-`NaN` concentration cell, but the Policy B loader applies
`pd.isna` to the *stringified* cell, so a `NaN` dilution cell becomes the
string `"nan"` and the row is **not** skipped, contradicting the loader's
own `# Skip empty or NaN entries` comment. -/
theorem load_filter_nan :
    keepRowA .nan = false
      ∧ keepRowA (.str []) = false
      ∧ keepRowA (.str ((" ").toList)) = false
      ∧ keepRowA (.str (("2-4 mg/mL").toList)) = true
      ∧ skipRowB (.str []) = true
      ∧ skipRowB (.str (("  ").toList)) = true
      ∧ skipRowB (.str (("1 g dans 100 ml").toList)) = false
      ∧ skipRowB .nan = false := by
  decide

/-- C6: Policy B on stability `"24h"`, dilution `"1 à 2 g dans 100 ml"`,
any administration duration other than `"NA"`, and dose 1.5 g: one
infusion of 1.5 g, `maxVal = 2`, `refVolume = 100`, raw volume
`1.5 * 100 / 2 = 75` mL rounded to 80 mL, material volumetric pump. -/
theorem policyB_scenario (dur : List Char) (h : upperStrip dur ≠ naChars) :
    searchP1 (("1 à 2 g dans 100 ml").toList) = some (1, 2, 100)
      ∧ (3 : ℚ) / 2 / ((1 : ℕ) : ℚ) * 100 / 2 = 75
      ∧ pyRound ((75 : ℚ) / 10) = 8
      ∧ policyB (("24h").toList) (("1 à 2 g dans 100 ml").toList) dur (3 / 2)
          = .plan ⟨1, 3 / 2, 80, .pompe⟩ := by
  refine ⟨by decide, by norm_num, by with_unfolding_all decide, ?_⟩
  have hred : policyB (("24h").toList) (("1 à 2 g dans 100 ml").toList) dur (3 / 2)
      = mkB 1 ((3 : ℚ) / 2 / ((1 : ℕ) : ℚ)) 100 2 dur := by
    with_unfolding_all rfl
  rw [hred]
  simp only [mkB]
  have harr : pyRound ((3 : ℚ) / 2 / ((1 : ℕ) : ℚ) * 100 / 2 / 10) * 10 = (80 : ℤ) := by
    with_unfolding_all decide
  rw [harr, if_neg h]
  norm_num

/-- Witness for C6 with the concrete duration `"30 min"`. -/
theorem policyB_scenario_witness :
    policyB (("24h").toList) (("1 à 2 g dans 100 ml").toList) (("30 min").toList) (3 / 2)
      = .plan ⟨1, 3 / 2, 80, .pompe⟩ :=
  (policyB_scenario (("30 min").toList) (by decide)).2.2.2

/-- C7: the Policy B dilution string is parsed by trying pattern 1
(`A à B g dans C ml`, giving `maxVal = B`, `refVolume = C`) first and
pattern 2 (`A g dans C ml`, giving `maxVal = A`, `refVolume = C`) only
when pattern 1 finds no match; decimal commas denote the same value as
dots; and when neither pattern matches the request ends in the reported
format error, producing no plan. -/
theorem parseDilution_pattern_order :
    (∀ dil : List Char, ∀ a b c : ℚ, searchP1 dil = some (a, b, c) →
        parseDilution dil = some (b, c))
      ∧ (∀ dil : List Char, ∀ a c : ℚ, searchP1 dil = none → searchP2 dil = some (a, c) →
          parseDilution dil = some (a, c))
      ∧ searchP1 (("1,5 à 2,5 g dans 100 ml").toList) = some (3 / 2, 5 / 2, 100)
      ∧ (∀ stab dil dur : List Char, ∀ dose : ℚ, ∀ sh : ℕ, 0 < dose →
          firstDigits stab = some sh → sh ≠ 0 → 24 / sh ≠ 0 →
          searchP1 dil = none → searchP2 dil = none →
          policyB stab dil dur dose = .parseError) := by
  refine ⟨?_, ?_, by with_unfolding_all decide, ?_⟩
  · intro dil a b c h
    simp only [parseDilution, h]
  · intro dil a c h1 h2
    simp only [parseDilution, h1, h2]
  · intro stab dil dur dose sh hdose hstab hsh h24 hp1 hp2
    have hnone : parseDilution dil = none := by
      simp only [parseDilution, hp1, hp2]
    unfold policyB
    rw [if_neg (not_le.mpr hdose)]
    simp only [hstab]
    rw [if_neg hsh, if_neg h24]
    simp only [hnone]

/-- Witness for C7's error clause: a dilution string matching neither
pattern is reported as a format error. -/
theorem parseDilution_pattern_order_witness :
    policyB (("24h").toList) (("aucune dilution connue").toList) naChars 1 = .parseError :=
  parseDilution_pattern_order.2.2.2 (("24h").toList) (("aucune dilution connue").toList)
    naChars 1 24 (by norm_num) (by decide) (by decide) (by decide) (by decide) (by decide)

/-- C8: every Policy B plan selects its material from the administration
duration and the rounded volume: `"NA"` (trimmed, case-insensitive) gives
the gravity line, otherwise the syringe pump iff the rounded volume is at
most 50 mL and the volumetric pump above that. -/
theorem policyB_material_selection (stab dil dur : List Char) (dose : ℚ) (p : Plan)
    (hp : policyB stab dil dur dose = .plan p) :
    p.material = if upperStrip dur = naChars then Material.IVL
      else if p.volume_dilution ≤ 50 then Material.PSE
      else Material.pompe := by
  unfold policyB at hp
  by_cases hd : dose ≤ 0
  · rw [if_pos hd] at hp; cases hp
  rw [if_neg hd] at hp
  rcases h1 : firstDigits stab with _ | sh <;> simp only [h1] at hp
  · cases hp
  by_cases h2 : sh = 0
  · rw [if_pos h2] at hp; cases hp
  rw [if_neg h2] at hp
  by_cases h3 : 24 / sh = 0
  · rw [if_pos h3] at hp; cases hp
  rw [if_neg h3] at hp
  rcases h4 : parseDilution dil with _ | ⟨maxVal, volRef⟩ <;> simp only [h4] at hp
  · cases hp
  by_cases h5 : maxVal = 0
  · rw [if_pos h5] at hp; cases hp
  rw [if_neg h5] at hp
  simp only [mkB] at hp
  rw [Outcome.plan.injEq] at hp
  subst hp
  by_cases h6 : upperStrip dur = naChars
  · rw [if_pos h6, if_pos h6]
  · rw [if_neg h6, if_neg h6]
    by_cases h7 : pyRound (dose / ((24 / sh : ℕ) : ℚ) * volRef / maxVal / 10) * 10 ≤ (50 : ℤ)
    · rw [if_pos h7, if_pos (show ((pyRound (dose / ((24 / sh : ℕ) : ℚ) * volRef / maxVal / 10)
          * 10 : ℤ) : ℚ) ≤ 50 by exact_mod_cast h7)]
    · rw [if_neg h7, if_neg (show ¬ ((pyRound (dose / ((24 / sh : ℕ) : ℚ) * volRef / maxVal / 10)
          * 10 : ℤ) : ℚ) ≤ 50 from fun hq => h7 (by exact_mod_cast hq))]

/-- Witness for C8 at the `"NA"` scenario: the returned plan's material is
the gravity line. -/
theorem policyB_material_selection_witness :
    (Plan.mk 1 1 50 .IVL).material
      = if upperStrip naChars = naChars then Material.IVL
        else if (Plan.mk 1 1 50 Material.IVL).volume_dilution ≤ 50 then Material.PSE
        else Material.pompe :=
  policyB_material_selection (("24h").toList) (("1 à 2 g dans 100 ml").toList) naChars 1 _
    (by with_unfolding_all decide)

/-- C9: both policies reject a non-positive dose before any parsing or
solving — for arbitrary (even unparseable) reference strings the outcome
is the invalid-input rejection and no plan — while a positive dose with a
parseable variant yields a plan. -/
theorem dose_guard (stab conc dil dur : List Char) (dose : ℚ) (h : dose ≤ 0) :
    policyA stab conc dose = .invalidInput
      ∧ policyB stab dil dur dose = .invalidInput
      ∧ policyA (("24h").toList) (("4 mg/mL").toList) 1 = .plan ⟨1, 1, 250, .pompe⟩
      ∧ policyB (("24h").toList) (("1 à 2 g dans 100 ml").toList) naChars 1
          = .plan ⟨1, 1, 50, .IVL⟩ := by
  refine ⟨?_, ?_, by with_unfolding_all decide, by with_unfolding_all decide⟩
  · unfold policyA
    rw [if_pos h]
  · unfold policyB
    rw [if_pos h]

/-- Witness for C9 at dose exactly 0 with empty reference strings. -/
theorem dose_guard_witness :
    policyA [] [] 0 = .invalidInput
      ∧ policyB [] [] [] 0 = .invalidInput
      ∧ policyA (("24h").toList) (("4 mg/mL").toList) 1 = .plan ⟨1, 1, 250, .pompe⟩
      ∧ policyB (("24h").toList) (("1 à 2 g dans 100 ml").toList) naChars 1
          = .plan ⟨1, 1, 50, .IVL⟩ :=
  dose_guard [] [] [] [] 0 le_rfl

